import Mathlib

/-!
Polygon queries of `ermilov.nikita/T3/Functions.cpp`

A shallow embedding of the geometry primitives and aggregate functions of
`Functions.cpp`, followed by theorems about them.

Modelling conventions.

* `int` values are exact integers (`Int`); signed overflow is undefined in
  C++, so the model only speaks about runs without overflow.
* `double` values are exact rationals (`ℚ`).  Every double the program
  produces is an integer or a half-integer, or a sum of such, and these are
  exact in binary floating point as long as they stay below `2 ^ 52`.
* `std::vector` is `List`.  Where the source dereferences an iterator of an
  empty range (`front()`, `back()`, `*max_element`, `v[0]` on an empty
  vector), the model returns `none`.
* A function with a result type whose control reaches the closing brace
  without a `return` statement has undefined behaviour; the model renders
  that end as `undefined`.
-/

namespace ermilov

/-! ## Data model -/

/-- A point with two `int` coordinates, `x_` and `y_`. -/
structure Point where
  x_ : Int
  y_ : Int
deriving DecidableEq

/-- A polygon: the vector `points_` of its vertices, in boundary order.
Equality is structural (same points in the same order). -/
structure Polygon where
  points_ : List Point
deriving DecidableEq

/-! ## Library functions used by the source -/

/-- Binary `std::transform(first1, last1, first2, d_first, op)` writing into an
already sized destination `dest`: the first `last1 - first1` cells are
overwritten with `op (*first1) (*first2)`, the rest of `dest` is left alone. -/
def transformInto {α β γ : Type} (op : α → β → γ) (xs : List α) (ys : List β)
    (dest : List γ) : List γ :=
  List.zipWith op xs ys ++ dest.drop (List.zipWith op xs ys).length

/-- Library function `std::accumulate(first, last, init)` over `int`. -/
def accumulateInt (values : List Int) (init : Int) : Int :=
  values.foldl (fun acc v => acc + v) init

/-! ## Geometry primitives -/

/-- Source function `getSubArea(first, second)`: `first.x_ * second.y_ - first.y_ * second.x_`. -/
def getSubArea (first second : Point) : Int :=
  first.x_ * second.y_ - first.y_ * second.x_

/-- The `int area` that `getArea` accumulates before taking the absolute
value, for a polygon whose first point is `front` and last point is `back`. -/
def getAreaSum (points : List Point) (front back : Point) : Int :=
  let values : List Int := List.replicate points.length 0
  let values := transformInto getSubArea points.tail points values
  let values := values ++ [getSubArea front back]
  accumulateInt values 0

/-- Source function `getArea(polygon)`: `abs(area) / 2.0`.  `none` when `points_` is empty
(the source then calls `front()` and `back()` on an empty vector). -/
def getArea (polygon : Polygon) : Option ℚ :=
  match polygon.points_.head?, polygon.points_.getLast? with
  | some front, some back =>
    some (((|getAreaSum polygon.points_ front back| : Int) : ℚ) / 2)
  | _, _ => none

/-- Source function `getVertAmount(polygon)`: the number of points. -/
def getVertAmount (polygon : Polygon) : Nat :=
  polygon.points_.length

/-! ## Aggregate functions -/

/-- Conversion of a `double` to `int`: truncation toward zero. -/
def doubleToInt (d : ℚ) : Int :=
  Int.tdiv d.num (d.den : Int)

/-- The comparison `polygon.points_.size() == vertNum` of a `size_t` with an
`int`: the `int` is first converted to the unsigned 64-bit type. -/
def sizeEqualsInt (size : Nat) (vertNum : Int) : Bool :=
  decide ((size : Int) = vertNum % 2 ^ 64)

/-- Source function `sumNum(result, polygon, vertNum)`. -/
def sumNum (result : ℚ) (polygon : Polygon) (vertNum : Int) : Option ℚ :=
  if sizeEqualsInt polygon.points_.length vertNum then
    (getArea polygon).map (fun area => result + area)
  else
    some result

/-- The loop of `std::accumulate(first, last, 0, op)` as `areaNum` calls it:
the initial value is the `int` literal `0`, so the accumulator is an `int`
and every `double` returned by `sumNum` is converted back to `int`. -/
def accumulateSumNum (vertNum : Int) : List Polygon → Int → Option Int
  | [], init => some init
  | polygon :: rest, init =>
    match sumNum (init : ℚ) polygon vertNum with
    | none => none
    | some d => accumulateSumNum vertNum rest (doubleToInt d)

/-- Source function `areaNum(vertNum, polygons)`. -/
def areaNum (vertNum : Int) (polygons : List Polygon) : Option ℚ :=
  (accumulateSumNum vertNum polygons 0).map (fun (sumArea : Int) => (sumArea : ℚ))

/-- Unary `std::transform(first, last, std::back_inserter(dest), op)`: each
result is appended to `dest`. -/
def transformBack {α β : Type} (op : α → Option β) : List α → List β → Option (List β)
  | [], dest => some dest
  | x :: xs, dest =>
    match op x with
    | none => none
    | some y => transformBack op xs (dest ++ [y])

/-- Library function `std::sort` on a vector of `double`: the ascending rearrangement. -/
def sortDoubles (values : List ℚ) : List ℚ :=
  values.insertionSort (fun a b => a ≤ b)

/-- Source function `maxArea(polygons)`: `areaList` starts with `polygons.size()` zeros, the
areas are appended behind them, and the last cell of the sorted vector is
returned. -/
def maxArea (polygons : List Polygon) : Option ℚ :=
  match transformBack getArea polygons (List.replicate polygons.length (0 : ℚ)) with
  | none => none
  | some areaList => (sortDoubles areaList)[(sortDoubles areaList).length - 1]?

/-- Source function `minArea(polygons)`: as `maxArea`, returning cell `0` of the sorted vector. -/
def minArea (polygons : List Polygon) : Option ℚ :=
  match transformBack getArea polygons (List.replicate polygons.length (0 : ℚ)) with
  | none => none
  | some areaList => (sortDoubles areaList)[0]?

/-! ## Bounding points and the intersection test -/

/-- Library function `std::max_element(first, last)` for the order `lt`: the first greatest
element, `none` on an empty range. -/
def max_element {α : Type} (lt : α → α → Bool) : List α → Option α
  | [] => none
  | x :: xs => some (xs.foldl (fun largest y => if lt largest y then y else largest) x)

/-- Library function `std::min_element(first, last)` for the order `lt`: the first least
element, `none` on an empty range. -/
def min_element {α : Type} (lt : α → α → Bool) : List α → Option α
  | [] => none
  | x :: xs => some (xs.foldl (fun smallest y => if lt y smallest then y else smallest) x)

/-- Modelled from the spec: `operator<` of `Point`, which is declared outside
`Functions.cpp`.  The data model asks for the lexicographic order on
`(x, y)`. -/
def Point.less (a b : Point) : Bool :=
  decide (a.x_ < b.x_ ∨ (a.x_ = b.x_ ∧ a.y_ < b.y_))

/-- Source function `getMaxPoint(polygon)`, with `lt` the `operator<` of `Point`: both
coordinates are read off `*std::max_element(points_.begin(), points_.end())`. -/
def getMaxPoint (lt : Point → Point → Bool) (polygon : Polygon) : Option Point :=
  match max_element lt polygon.points_, max_element lt polygon.points_ with
  | some forX, some forY => some { x_ := forX.x_, y_ := forY.y_ }
  | _, _ => none

/-- Source function `getMinPoint(polygon)`, with `lt` the `operator<` of `Point`: both
coordinates are read off `*std::min_element(points_.begin(), points_.end())`. -/
def getMinPoint (lt : Point → Point → Bool) (polygon : Polygon) : Option Point :=
  match min_element lt polygon.points_, min_element lt polygon.points_ with
  | some forX, some forY => some { x_ := forX.x_, y_ := forY.y_ }
  | _, _ => none

/-- Source function `areIntersect(first, second)`, with `lt` the `operator<` of `Point`. -/
def areIntersect (lt : Point → Point → Bool) (first second : Polygon) : Option Bool :=
  match getMaxPoint lt first, getMinPoint lt first,
        getMaxPoint lt second, getMinPoint lt second with
  | some firstMax, some firstMin, some secondMax, some secondMin =>
    some (decide (firstMax.x_ ≥ secondMin.x_) && decide (firstMax.y_ ≥ secondMin.y_)
      && decide (firstMin.x_ ≤ secondMax.x_) && decide (firstMin.y_ ≤ secondMax.y_))
  | _, _, _, _ => none

/-! ## Duplicate removal -/

/-- What `in >> deletePolygon` finds on the stream: nothing left to read (the
sentry fails), text that is not a polygon, or a polygon. -/
inductive PolygonInput where
  | exhausted
  | malformed
  | polygon (p : Polygon)

/-- The lambda that `rmecho` hands to `std::remove_if` (lines 244 to 255), with
the captured flag `found` as explicit state: returns whether `temp` is to be
removed, and the new value of `found`. -/
def rmechoPredicate (deletePolygon : Polygon) (found : Bool) (temp : Polygon) : Bool × Bool :=
  if temp = deletePolygon ∧ found = true then (true, found)
  else if temp = deletePolygon then (false, true)
  else (false, found)

/-- Library function `std::remove_if` followed by `erase(pos, end)` on a vector
that may be modified, for a predicate that carries state: the predicate is
applied to each element once, front to back, and the elements for which it
answers `false` are kept in order.  This is what the statements of lines 242
to 258 ask for; `rmecho` itself applies them to a vector it may not modify. -/
def removeIfErase {α σ : Type} (pred : σ → α → Bool × σ) : σ → List α → List α
  | _, [] => []
  | s, x :: xs =>
    if (pred s x).1 then removeIfErase pred (pred s x).2 xs
    else x :: removeIfErase pred (pred s x).2 xs

/-- How a call of `rmecho` ends: without a defined outcome, with an exception,
or with a returned `int`.  The collection is passed as
`const std::vector<Polygon>&`, so no defined call changes it. -/
inductive RmechoResult where
  | undefined
  | thrown (message : String)
  | returned (value : Int)
deriving DecidableEq

/-- Source function `rmecho(polygons, in)`.  An empty collection and a failing
sentry return `0`; a probe that does not parse throws `BAD POLYGON`.  Once the
probe is parsed, the source applies `std::remove_if` with a `Polygon&` lambda
and `erase` to the `const` vector, which the language does not admit, and
control then reaches the end of the `int` function without a `return`
statement: that path has no defined outcome. -/
def rmecho (polygons : List Polygon) (input : PolygonInput) : RmechoResult :=
  if polygons.length = 0 then RmechoResult.returned 0
  else
    match input with
    | PolygonInput.exhausted => RmechoResult.returned 0
    | PolygonInput.malformed => RmechoResult.thrown "BAD POLYGON"
    | PolygonInput.polygon _ => RmechoResult.undefined

/-! ## Sums, means and counts -/

/-- Source function `sumEven(result, polygon)`. -/
def sumEven (result : ℚ) (polygon : Polygon) : Option ℚ :=
  if polygon.points_.length % 2 = 0 then
    (getArea polygon).map (fun area => result + area)
  else
    some result

/-- Source function `sumOdd(result, polygon)`. -/
def sumOdd (result : ℚ) (polygon : Polygon) : Option ℚ :=
  if polygon.points_.length % 2 ≠ 0 then
    (getArea polygon).map (fun area => result + area)
  else
    some result

/-- Source function `sumAll(result, polygon)`. -/
def sumAll (result : ℚ) (polygon : Polygon) : Option ℚ :=
  (getArea polygon).map (fun area => result + area)

/-- Library function `std::accumulate(first, last, init, op)` with a `double`
initial value, so with a `double` accumulator. -/
def accumulateDouble (op : ℚ → Polygon → Option ℚ) : List Polygon → ℚ → Option ℚ
  | [], init => some init
  | polygon :: rest, init =>
    match op init polygon with
    | none => none
    | some d => accumulateDouble op rest d

/-- Source function `areaEven(polygons)`. -/
def areaEven (polygons : List Polygon) : Option ℚ :=
  accumulateDouble sumEven polygons 0

/-- Source function `areaOdd(polygons)`. -/
def areaOdd (polygons : List Polygon) : Option ℚ :=
  accumulateDouble sumOdd polygons 0

/-- Source function `areaMean(polygons)`: the accumulated sum divided by
`polygons.size()`.  On an empty collection the source computes `0.0 / 0`,
which is not a number; the model renders that as `none` too. -/
def areaMean (polygons : List Polygon) : Option ℚ :=
  match accumulateDouble sumAll polygons 0 with
  | none => none
  | some sumArea =>
    if polygons.length = 0 then none else some (sumArea / (polygons.length : ℚ))

/-- Library function `std::sort` on a vector of `int`: the ascending rearrangement. -/
def sortInts (values : List Int) : List Int :=
  values.insertionSort (fun a b => a ≤ b)

/-- Source function `maxVert(polygons)`: the sizes are appended to the empty
`vertexList`, which is sorted; its last cell is returned as a `double`. -/
def maxVert (polygons : List Polygon) : Option ℚ :=
  match transformBack (fun temp => some (temp.points_.length : Int)) polygons [] with
  | none => none
  | some vertexList =>
    ((sortInts vertexList)[(sortInts vertexList).length - 1]?).map (fun (v : Int) => (v : ℚ))

/-- Source function `minVert(polygons)`: as `maxVert`, returning cell `0`. -/
def minVert (polygons : List Polygon) : Option ℚ :=
  match transformBack (fun temp => some (temp.points_.length : Int)) polygons [] with
  | none => none
  | some vertexList => ((sortInts vertexList)[0]?).map (fun (v : Int) => (v : ℚ))

/-- Source function `countEven(polygons)`: the `int amount` of `std::count_if`,
returned as a `double`. -/
def countEven (polygons : List Polygon) : ℚ :=
  let amount : Int := polygons.countP (fun temp => decide (temp.points_.length % 2 = 0))
  (amount : ℚ)

/-- Source function `countOdd(polygons)`. -/
def countOdd (polygons : List Polygon) : ℚ :=
  let amount : Int := polygons.countP (fun temp => decide (temp.points_.length % 2 ≠ 0))
  (amount : ℚ)

/-- Source function `countNum(vertNum, polygons)`; the lambda compares the
`size_t` size with the `int` `vertNum`. -/
def countNum (vertNum : Int) (polygons : List Polygon) : ℚ :=
  let amount : Int := polygons.countP (fun temp => sizeEqualsInt temp.points_.length vertNum)
  (amount : ℚ)

/-- The `std::count_if` of `intersections`: the number of polygons for which
`areIntersect(_1, intersectPolygon)` holds. -/
def countIntersect (lt : Point → Point → Bool) (intersectPolygon : Polygon) :
    List Polygon → Option Int
  | [] => some 0
  | polygon :: rest =>
    match areIntersect lt polygon intersectPolygon, countIntersect lt intersectPolygon rest with
    | some hit, some amount => some (if hit then amount + 1 else amount)
    | _, _ => none

/-- Source function `intersections(polygons, in)`: the returned count (`none`
when the count itself is undefined), or the message of the exception. -/
def intersections (lt : Point → Point → Bool) (polygons : List Polygon)
    (input : PolygonInput) : Except String (Option Int) :=
  if polygons.length = 0 then Except.ok (some 0)
  else
    match input with
    | PolygonInput.exhausted => Except.ok (some 0)
    | PolygonInput.malformed => Except.error "BAD POLYGON"
    | PolygonInput.polygon intersectPolygon =>
      Except.ok (countIntersect lt intersectPolygon polygons)

/-! ## Command interpreter -/

/-- What `chooseCommand` finds on the stream once the sentry has succeeded:
the two tokens read by `in >> commandType >> option` (a token that is missing
is the empty string) and what follows them. -/
structure CommandInput where
  commandType : String
  option : String
  rest : PolygonInput

/-- One thing written to `out`. -/
inductive OutputItem where
  /-- A `double` written by `out << value << "\n"` under `std::fixed` and
  `std::setprecision(1)`: one line holding the value with one decimal. -/
  | number (value : ℚ)
  /-- An `int` written by `out << value`. -/
  | count (value : Int)
deriving DecidableEq

/-- How a call of `chooseCommand` ends.  `undefined out`: the call reached a
point of undefined behaviour after the statements before it had written
`out`; nothing is promised about such a run as a whole.  `thrown message out`:
an exception, and what had been written before it.  `returned out`: the
`return out;` statement, and what had been written.  The collection is a
`const` reference and is the same after the call. -/
inductive CommandResult where
  | undefined (out : List OutputItem)
  | thrown (message : String) (out : List OutputItem)
  | returned (out : List OutputItem)
deriving DecidableEq

/-- Library function `std::isdigit` as g++ compiles the call: the compiler
replaces it by the range test `(unsigned)c - 48 <= 9`, whose value is `1` for
a decimal digit and `0` otherwise.  The C standard fixes only zero against
non-zero; the C function of glibc, called when the builtin is switched off,
answers `2048` for a digit. -/
def isdigitBuiltin (ch : Char) : Int :=
  if ch.isDigit then 1 else 0

/-- The `char` that `option[0]` reads: the first character, or the terminating
null character when the string is empty. -/
def firstChar (str : String) : Char :=
  str.toList.headD (Char.ofNat 0)

/-- The value of a run of decimal digits. -/
def digitsValue (digits : List Char) : Nat :=
  digits.foldl (fun acc ch => 10 * acc + (ch.toNat - 48)) 0

/-- Library function `std::stoi(str)`: skips leading white space, reads an
optional sign and the longest run of decimal digits, and ignores what follows.
Throws `std::invalid_argument` when there is no digit and `std::out_of_range`
when the value does not fit an `int`. -/
def stoi (str : String) : Except String Int :=
  let chars := str.toList.dropWhile Char.isWhitespace
  let negative : Bool := chars.head? = some '-'
  let unsigned : List Char :=
    if chars.head? = some '-' ∨ chars.head? = some '+' then chars.tail else chars
  let digits := unsigned.takeWhile Char.isDigit
  if digits.length = 0 then Except.error "std::invalid_argument"
  else
    let value : Int := if negative then - (digitsValue digits : Int) else (digitsValue digits : Int)
    if value < - 2 ^ 31 ∨ value > 2 ^ 31 - 1 then Except.error "std::out_of_range"
    else Except.ok value

/-- The statement `out << value << "\n"` for the `double` returned by an
aggregate, followed by the end of `chooseCommand`: behind the chain of `if`
and `else if` there is no `return` statement, so the call ends undefined after
the line has been written. -/
def writeNumber (value : Option ℚ) : CommandResult :=
  match value with
  | none => CommandResult.undefined []
  | some v => CommandResult.undefined [OutputItem.number v]

/-- Source function `chooseCommand(in, out, polygons)`.  `input` is `none`
when the sentry fails, the one path with a `return out;`.  `isdigit` is
`std::isdigit` (see `isdigitBuiltin`); `lt` is `operator<` of `Point`.  The
`std::map` lookups `commands.at(option)` are the chains of comparisons with
the registered keys.  Every path that neither throws nor fails the sentry
runs into the closing brace of the function without a `return` statement. -/
def chooseCommand (isdigit : Char → Int) (lt : Point → Point → Bool)
    (input : Option CommandInput) (polygons : List Polygon) : CommandResult :=
  match input with
  | none => CommandResult.returned []
  | some command =>
    if polygons.length = 0 then CommandResult.thrown "BAD POLYGONS" []
    else if command.commandType = "AREA" then
      if command.option = "EVEN" then writeNumber (areaEven polygons)
      else if command.option = "MEAN" then writeNumber (areaMean polygons)
      else if command.option = "ODD" then writeNumber (areaOdd polygons)
      else if isdigit (firstChar command.option) > 2 then
        match stoi command.option with
        | Except.error message => CommandResult.thrown message []
        | Except.ok vertNum => writeNumber (areaNum vertNum polygons)
      else CommandResult.thrown "BAD COMMAND TYPE" []
    else if command.commandType = "MAX" then
      if command.option = "AREA" then writeNumber (maxArea polygons)
      else if command.option = "VERTEXES" then writeNumber (maxVert polygons)
      else CommandResult.thrown "BAD COMMAND TYPE" []
    else if command.commandType = "MIN" then
      if command.option = "AREA" then writeNumber (minArea polygons)
      else if command.option = "VERTEXES" then writeNumber (minVert polygons)
      else CommandResult.thrown "BAD COMMAND TYPE" []
    else if command.commandType = "COUNT" then
      if command.option = "EVEN" then writeNumber (some (countEven polygons))
      else if command.option = "ODD" then writeNumber (some (countOdd polygons))
      else if isdigit (firstChar command.option) > 2 then
        match stoi command.option with
        | Except.error message => CommandResult.thrown message []
        | Except.ok vertNum => writeNumber (some (countNum vertNum polygons))
      else CommandResult.thrown "BAD COMMAND TYPE" []
    else if command.commandType = "RMECHO" then
      match rmecho polygons command.rest with
      | RmechoResult.undefined => CommandResult.undefined []
      | RmechoResult.thrown message => CommandResult.thrown message []
      | RmechoResult.returned value => CommandResult.undefined [OutputItem.count value]
    else if command.commandType = "INTERSECTIONS" then
      match intersections lt polygons command.rest with
      | Except.error message => CommandResult.thrown message []
      | Except.ok none => CommandResult.undefined []
      | Except.ok (some amount) => CommandResult.undefined [OutputItem.count amount]
    else CommandResult.undefined []

/-! ## Specification-side definitions -/

/-- The shoelace value of a point sequence, as the specification words it:
the absolute value of the sum, over consecutive pairs `(p i, p (i+1))` with
the last point wrapping to the first, of `x i * y (i+1) - x (i+1) * y i`,
divided by two. -/
def shoelace (points : List Point) : ℚ :=
  let x : Nat → Int := fun i => (points.getD (i % points.length) ⟨0, 0⟩).x_
  let y : Nat → Int := fun i => (points.getD (i % points.length) ⟨0, 0⟩).y_
  ((|∑ i in Finset.range points.length, (x i * y (i + 1) - x (i + 1) * y i)| : Int) : ℚ) / 2

/-- The greatest value of the coordinate `f` over a point sequence. -/
def maxCoordinate (f : Point → Int) : List Point → Option Int
  | [] => none
  | p :: ps => some (ps.foldl (fun m q => max m (f q)) (f p))

/-- The least value of the coordinate `f` over a point sequence. -/
def minCoordinate (f : Point → Int) : List Point → Option Int
  | [] => none
  | p :: ps => some (ps.foldl (fun m q => min m (f q)) (f p))

/-- The overlap test of the axis-aligned bounding boxes of `a` and `b` as the
specification words it, the extremes taken componentwise over all points. -/
def boundingBoxesOverlap (a b : Polygon) : Option Bool :=
  match maxCoordinate Point.x_ a.points_, maxCoordinate Point.y_ a.points_,
        minCoordinate Point.x_ a.points_, minCoordinate Point.y_ a.points_,
        maxCoordinate Point.x_ b.points_, maxCoordinate Point.y_ b.points_,
        minCoordinate Point.x_ b.points_, minCoordinate Point.y_ b.points_ with
  | some maxXa, some maxYa, some minXa, some minYa,
    some maxXb, some maxYb, some minXb, some minYb =>
    some (decide (maxXa ≥ minXb) && decide (maxYa ≥ minYb)
      && decide (minXa ≤ maxXb) && decide (minYa ≤ maxYb))
  | _, _, _, _, _, _, _, _ => none

/-- Duplicate removal as the specification words it: everything up to and
including the first polygon equal to `q` stays, and behind it every polygon
equal to `q` is deleted. -/
def keepFirstOnly (q : Polygon) (c : List Polygon) : List Polygon :=
  c.takeWhile (fun p => decide (p ≠ q)) ++
    (match c.dropWhile (fun p => decide (p ≠ q)) with
     | [] => []
     | first :: rest => first :: rest.filter (fun p => decide (p ≠ q)))

/-- The data-model invariant of a collection: every polygon has at least
three points. -/
def WellFormed (c : List Polygon) : Prop :=
  ∀ p ∈ c, 3 ≤ p.points_.length

/-! ## Auxiliary definitions for the proofs -/

/-- The sum of `getSubArea (p (i+1)) (p i)` over the neighbouring pairs of a
point sequence, without the closing pair. -/
def chainSum : List Point → Int
  | a :: b :: l => getSubArea b a + chainSum (b :: l)
  | _ => 0

/-- The closed sum: `chainSum` plus the closing term `getSubArea front back`. -/
def cycleSum (points : List Point) : Int :=
  match points.head?, points.getLast? with
  | some front, some back => chainSum points + getSubArea front back
  | _, _ => 0

/-! ## Lemmas on `getArea` -/

theorem getSubArea_swap (a b : Point) : getSubArea a b = - getSubArea b a := by
  unfold getSubArea; ring

theorem accumulateInt_eq (values : List Int) (init : Int) :
    accumulateInt values init = init + values.sum := by
  unfold accumulateInt
  induction values generalizing init with
  | nil => simp
  | cons v vs ih => simp [List.foldl_cons, ih, add_assoc]

theorem zipWith_tail_sum (points : List Point) :
    (List.zipWith getSubArea points.tail points).sum = chainSum points := by
  induction points with
  | nil => simp [chainSum]
  | cons a l ih =>
    cases l with
    | nil => simp [chainSum]
    | cons b t =>
      simp only [List.tail_cons] at ih ⊢
      simp [chainSum, List.zipWith_cons_cons, ih]

theorem getAreaSum_eq (points : List Point) (front back : Point) :
    getAreaSum points front back = chainSum points + getSubArea front back := by
  simp [getAreaSum, transformInto, accumulateInt_eq, zipWith_tail_sum, List.sum_append]

theorem getArea_eq_cycleSum (points : List Point) (h : points ≠ []) :
    getArea ⟨points⟩ = some (((|cycleSum points| : Int) : ℚ) / 2) := by
  cases points with
  | nil => exact absurd rfl h
  | cons a l =>
    have hl : (a :: l).getLast? = some ((a :: l).getLast (by simp)) :=
      List.getLast?_eq_getLast _ _
    simp only [getArea, cycleSum, List.head?_cons, hl, getAreaSum_eq]

theorem chainSum_append_singleton (l : List Point) (a : Point) :
    chainSum (l ++ [a]) = chainSum l +
      (match l.getLast? with
       | some z => getSubArea a z
       | none => 0) := by
  induction l with
  | nil => simp [chainSum]
  | cons x t ih =>
    cases t with
    | nil => simp [chainSum]
    | cons y s =>
      have h2 : (x :: y :: s).getLast? = (y :: s).getLast? := by simp [List.getLast?_cons_cons]
      rw [h2]
      have e1 : chainSum ((x :: y :: s) ++ [a])
          = getSubArea y x + chainSum ((y :: s) ++ [a]) := rfl
      have e2 : chainSum (x :: y :: s) = getSubArea y x + chainSum (y :: s) := rfl
      rw [e1, e2, ih]; ring

theorem chainSum_reverse (l : List Point) : chainSum l.reverse = - chainSum l := by
  induction l with
  | nil => simp [chainSum]
  | cons a t ih =>
    rw [List.reverse_cons, chainSum_append_singleton, ih, List.getLast?_reverse]
    cases t with
    | nil => simp [chainSum]
    | cons b s =>
      have e2 : chainSum (a :: b :: s) = getSubArea b a + chainSum (b :: s) := rfl
      rw [e2]
      simp only [List.head?_cons]
      rw [getSubArea_swap a b]; ring

theorem cycleSum_reverse (l : List Point) : cycleSum l.reverse = - cycleSum l := by
  cases l with
  | nil => simp [cycleSum]
  | cons a t =>
    have hl : (a :: t).getLast? = some ((a :: t).getLast (by simp)) :=
      List.getLast?_eq_getLast _ _
    simp only [cycleSum, List.head?_reverse, List.getLast?_reverse, hl, List.head?_cons,
      chainSum_reverse]
    rw [getSubArea_swap]; ring

theorem cycleSum_rotate_one (l : List Point) : cycleSum (l.rotate 1) = cycleSum l := by
  cases l with
  | nil => simp
  | cons a t =>
    rw [List.rotate_cons_succ, List.rotate_zero]
    cases t with
    | nil => simp
    | cons b s =>
      have hl : (b :: s).getLast? = some ((b :: s).getLast (by simp)) :=
        List.getLast?_eq_getLast _ _
      have e2 : chainSum (a :: b :: s) = getSubArea b a + chainSum (b :: s) := rfl
      have h3 : (a :: b :: s).getLast? = (b :: s).getLast? := by simp [List.getLast?_cons_cons]
      have h4 : ((b :: s) ++ [a]).getLast? = some a := List.getLast?_concat _
      have h5 : ((b :: s) ++ [a]).head? = some b := by simp
      simp only [cycleSum, chainSum_append_singleton, h4, h5, List.head?_cons, h3, hl, e2]
      ring

theorem cycleSum_rotate (l : List Point) (k : Nat) : cycleSum (l.rotate k) = cycleSum l := by
  induction k with
  | zero => simp
  | succ n ih => rw [← List.rotate_rotate, cycleSum_rotate_one, ih]

theorem chainSum_eq_sum (l : List Point) (d : Point) :
    chainSum l = ∑ i in Finset.range (l.length - 1),
      getSubArea (l.getD (i + 1) d) (l.getD i d) := by
  induction l with
  | nil => simp [chainSum]
  | cons a t ih =>
    cases t with
    | nil => simp [chainSum]
    | cons b s =>
      have e2 : chainSum (a :: b :: s) = getSubArea b a + chainSum (b :: s) := rfl
      have e3 : (a :: b :: s).length - 1 = ((b :: s).length - 1) + 1 := by simp
      rw [e2, e3, Finset.sum_range_succ', ih, add_comm]
      rfl

theorem cycleSum_eq_neg_sum (l : List Point) (h : l ≠ []) (d : Point) :
    cycleSum l = - ∑ i in Finset.range l.length,
      ((l.getD (i % l.length) d).x_ * (l.getD ((i + 1) % l.length) d).y_
        - (l.getD ((i + 1) % l.length) d).x_ * (l.getD (i % l.length) d).y_) := by
  obtain ⟨m, hm⟩ : ∃ m, l.length = m + 1 :=
    Nat.exists_eq_succ_of_ne_zero (fun h0 => h (List.length_eq_zero.mp h0))
  have hhead : l.head? = some (l.getD 0 d) := by
    cases l with
    | nil => exact absurd rfl h
    | cons a t => simp
  have hlast : l.getLast? = some (l.getD m d) := by
    rw [List.getLast?_eq_getElem?, hm, Nat.add_sub_cancel, List.getD_eq_getElem?_getD]
    have hlt : m < l.length := by omega
    rw [List.getElem?_eq_getElem hlt]; rfl
  have hchain := chainSum_eq_sum l d
  rw [hm, Nat.add_sub_cancel] at hchain
  have hsum : ∑ i in Finset.range m,
      ((l.getD (i % (m + 1)) d).x_ * (l.getD ((i + 1) % (m + 1)) d).y_
        - (l.getD ((i + 1) % (m + 1)) d).x_ * (l.getD (i % (m + 1)) d).y_)
      = ∑ i in Finset.range m, - getSubArea (l.getD (i + 1) d) (l.getD i d) := by
    apply Finset.sum_congr rfl
    intro i hi
    have hi2 : i < m := Finset.mem_range.mp hi
    rw [Nat.mod_eq_of_lt (by omega : i < m + 1), Nat.mod_eq_of_lt (by omega : i + 1 < m + 1)]
    unfold getSubArea; ring
  simp only [cycleSum, hhead, hlast]
  rw [hm, Finset.sum_range_succ, hsum, Finset.sum_neg_distrib, ← hchain,
    Nat.mod_self, Nat.mod_eq_of_lt (by omega : m < m + 1)]
  unfold getSubArea; ring

/-! ## Lemmas on the aggregates -/

theorem getArea_nonneg (p : Polygon) (a : ℚ) (h : getArea p = some a) : 0 ≤ a := by
  unfold getArea at h
  split at h
  · injection h with h
    rw [← h]
    positivity
  · exact absurd h (by simp)

theorem getArea_isSome (p : Polygon) (h : 3 ≤ p.points_.length) :
    ∃ a, getArea p = some a := by
  have hne : p.points_ ≠ [] := by
    intro h0; rw [h0] at h; simp at h
  exact ⟨_, getArea_eq_cycleSum p.points_ hne⟩

theorem transformBack_eq_map {α β : Type} (op : α → Option β) (f : α → β) (xs : List α)
    (dest : List β) (h : ∀ x ∈ xs, op x = some (f x)) :
    transformBack op xs dest = some (dest ++ xs.map f) := by
  induction xs generalizing dest with
  | nil => simp [transformBack]
  | cons x t ih =>
    have hx : op x = some (f x) := h x (List.mem_cons_self _ _)
    have ht : ∀ y ∈ t, op y = some (f y) := fun y hy => h y (List.mem_cons_of_mem _ hy)
    simp only [transformBack, hx]
    rw [ih _ ht]
    simp

theorem sortDoubles_sorted (l : List ℚ) : (sortDoubles l).Sorted (fun a b => a ≤ b) :=
  List.sorted_insertionSort (fun a b : ℚ => a ≤ b) l

theorem mem_sortDoubles (l : List ℚ) (x : ℚ) : x ∈ sortDoubles l ↔ x ∈ l :=
  List.mem_insertionSort (fun a b : ℚ => a ≤ b)

theorem sortDoubles_ne_nil (l : List ℚ) (h : l ≠ []) : sortDoubles l ≠ [] := by
  intro h0
  have hlen : (sortDoubles l).length = l.length :=
    List.length_insertionSort (fun a b : ℚ => a ≤ b) l
  rw [h0] at hlen
  exact h (List.length_eq_zero.mp hlen.symm)

theorem sortDoubles_first (l : List ℚ) (h : l ≠ []) :
    ∃ v, (sortDoubles l)[0]? = some v ∧ v ∈ l ∧ ∀ a ∈ l, v ≤ a := by
  have hs := sortDoubles_sorted l
  have hm := mem_sortDoubles l
  have hne := sortDoubles_ne_nil l h
  cases hsl : sortDoubles l with
  | nil => exact absurd hsl hne
  | cons v t =>
    rw [hsl] at hs
    refine ⟨v, by simp, ?_, ?_⟩
    · rw [← hm, hsl]; exact List.mem_cons_self _ _
    · intro a ha
      rw [← hm, hsl] at ha
      rcases List.mem_cons.mp ha with rfl | hat
      · exact le_refl _
      · exact List.rel_of_sorted_cons hs a hat

theorem sortDoubles_last (l : List ℚ) (h : l ≠ []) :
    ∃ v, (sortDoubles l)[(sortDoubles l).length - 1]? = some v ∧ v ∈ l ∧ ∀ a ∈ l, a ≤ v := by
  have hs := sortDoubles_sorted l
  have hm := mem_sortDoubles l
  have hne := sortDoubles_ne_nil l h
  refine ⟨(sortDoubles l).getLast hne, ?_, ?_, ?_⟩
  · rw [← List.getLast?_eq_getElem?]; exact List.getLast?_eq_getLast _ hne
  · rw [← hm]; exact List.getLast_mem hne
  · intro a ha
    rw [← hm] at ha
    rw [← List.dropLast_append_getLast hne] at hs ha
    rcases List.mem_append.mp ha with hd | hl
    · exact (List.pairwise_append.mp hs).2.2 a hd _ (List.mem_singleton_self _)
    · rw [List.mem_singleton.mp hl]

/-- The list of areas that `maxArea` and `minArea` sort, for a well-formed
collection: `polygons.size()` zeros followed by the areas. -/
theorem areaList_eq (c : List Polygon) (hwf : WellFormed c) :
    transformBack getArea c (List.replicate c.length (0 : ℚ))
      = some (List.replicate c.length (0 : ℚ) ++ c.map (fun p => (getArea p).getD 0)) := by
  apply transformBack_eq_map
  intro p hp
  obtain ⟨a, ha⟩ := getArea_isSome p (hwf p hp)
  rw [ha]; rfl

/-! ## Lemmas on duplicate removal -/

theorem keepFirstOnly_nil (q : Polygon) : keepFirstOnly q [] = [] := rfl

theorem keepFirstOnly_cons_self (q : Polygon) (t : List Polygon) :
    keepFirstOnly q (q :: t) = q :: t.filter (fun p => decide (p ≠ q)) := by
  simp [keepFirstOnly]

theorem keepFirstOnly_cons_ne (q x : Polygon) (t : List Polygon) (h : x ≠ q) :
    keepFirstOnly q (x :: t) = x :: keepFirstOnly q t := by
  simp [keepFirstOnly, h]

theorem removeIfErase_found (q : Polygon) (l : List Polygon) :
    removeIfErase (rmechoPredicate q) true l = l.filter (fun p => decide (p ≠ q)) := by
  induction l with
  | nil => rfl
  | cons x t ih =>
    by_cases hx : x = q
    · simp [removeIfErase, rmechoPredicate, hx, ih]
    · simp [removeIfErase, rmechoPredicate, hx, ih]

theorem removeIfErase_not_found (q : Polygon) (l : List Polygon) :
    removeIfErase (rmechoPredicate q) false l = keepFirstOnly q l := by
  induction l with
  | nil => rfl
  | cons x t ih =>
    by_cases hx : x = q
    · subst hx
      rw [keepFirstOnly_cons_self]
      simp [removeIfErase, rmechoPredicate, removeIfErase_found]
    · rw [keepFirstOnly_cons_ne q x t hx]
      simp [removeIfErase, rmechoPredicate, hx, ih]

theorem keepFirstOnly_sublist (q : Polygon) (c : List Polygon) :
    (keepFirstOnly q c).Sublist c := by
  induction c with
  | nil => exact List.Sublist.slnil
  | cons x t ih =>
    by_cases hx : x = q
    · subst hx
      rw [keepFirstOnly_cons_self]
      exact List.Sublist.cons₂ _ (List.filter_sublist _)
    · rw [keepFirstOnly_cons_ne q x t hx]
      exact List.Sublist.cons₂ _ ih

theorem keepFirstOnly_filter (q : Polygon) (c : List Polygon) :
    (keepFirstOnly q c).filter (fun p => decide (p ≠ q))
      = c.filter (fun p => decide (p ≠ q)) := by
  induction c with
  | nil => rfl
  | cons x t ih =>
    by_cases hx : x = q
    · subst hx
      rw [keepFirstOnly_cons_self]
      simp
    · rw [keepFirstOnly_cons_ne q x t hx]
      have hd : decide (x ≠ q) = true := decide_eq_true hx
      simp only [List.filter_cons, hd, if_true, ih]

theorem keepFirstOnly_count (q : Polygon) (c : List Polygon) :
    (keepFirstOnly q c).count q = min 1 (c.count q) := by
  induction c with
  | nil => rfl
  | cons x t ih =>
    by_cases hx : x = q
    · subst hx
      rw [keepFirstOnly_cons_self, List.count_cons_self, List.count_cons_self]
      have h0 : (t.filter (fun p => decide (p ≠ x))).count x = 0 := by
        apply List.count_eq_zero.mpr
        intro hmem
        have := (List.mem_filter.mp hmem).2
        simp at this
      rw [h0]
      omega
    · rw [keepFirstOnly_cons_ne q x t hx, List.count_cons_of_ne (Ne.symm hx),
        List.count_cons_of_ne (Ne.symm hx), ih]

/-! ## Theorems on `getArea` -/

/-- C1: for a polygon with at least three points, `getArea` returns the
shoelace value: the absolute value of the sum of
`x i * y (i+1) - x (i+1) * y i` over consecutive point pairs, the last point
wrapping to the first, divided by two (integer arithmetic exact). -/
theorem getArea_eq_shoelace (polygon : Polygon) (h : 3 ≤ polygon.points_.length) :
    getArea polygon = some (shoelace polygon.points_) := by
  have hne : polygon.points_ ≠ [] := by
    intro h0; rw [h0] at h; simp at h
  have e := getArea_eq_cycleSum polygon.points_ hne
  rw [cycleSum_eq_neg_sum polygon.points_ hne ⟨0, 0⟩, abs_neg] at e
  exact e

theorem getArea_eq_shoelace_witness :
    getArea ⟨[⟨0, 0⟩, ⟨4, 0⟩, ⟨0, 3⟩]⟩ = some (shoelace [⟨0, 0⟩, ⟨4, 0⟩, ⟨0, 3⟩])
      ∧ shoelace [⟨0, 0⟩, ⟨4, 0⟩, ⟨0, 3⟩] = 6 :=
  ⟨getArea_eq_shoelace ⟨[⟨0, 0⟩, ⟨4, 0⟩, ⟨0, 3⟩]⟩ (by decide),
    by simp [shoelace, Finset.sum_range_succ]; norm_num⟩

/-- C2: for a polygon with at least three points, `getArea` returns a value,
and it returns the same value for the polygon with its points in reverse
order. -/
theorem getArea_reverse (polygon : Polygon) (h : 3 ≤ polygon.points_.length) :
    ∃ area, getArea polygon = some area ∧
      getArea ⟨polygon.points_.reverse⟩ = some area := by
  have hne : polygon.points_ ≠ [] := by
    intro h0; rw [h0] at h; simp at h
  have hne2 : polygon.points_.reverse ≠ [] := by simpa using hne
  refine ⟨_, getArea_eq_cycleSum polygon.points_ hne, ?_⟩
  rw [getArea_eq_cycleSum _ hne2, cycleSum_reverse, abs_neg]

theorem getArea_reverse_witness :
    ∃ area, getArea ⟨[⟨0, 0⟩, ⟨4, 0⟩, ⟨0, 3⟩]⟩ = some area ∧
      getArea ⟨[⟨0, 3⟩, ⟨4, 0⟩, ⟨0, 0⟩]⟩ = some area :=
  getArea_reverse ⟨[⟨0, 0⟩, ⟨4, 0⟩, ⟨0, 3⟩]⟩ (by decide)

/-- C3: for a polygon with at least three points and every `k`, `getArea`
returns a value, and it returns the same value for the polygon whose point
sequence is rotated cyclically by `k` positions. -/
theorem getArea_rotate (polygon : Polygon) (k : Nat) (h : 3 ≤ polygon.points_.length) :
    ∃ area, getArea polygon = some area ∧
      getArea ⟨polygon.points_.rotate k⟩ = some area := by
  have hne : polygon.points_ ≠ [] := by
    intro h0; rw [h0] at h; simp at h
  have hne2 : polygon.points_.rotate k ≠ [] := by
    intro h0; exact hne (List.rotate_eq_nil_iff.mp h0)
  refine ⟨_, getArea_eq_cycleSum polygon.points_ hne, ?_⟩
  rw [getArea_eq_cycleSum _ hne2, cycleSum_rotate]

theorem getArea_rotate_witness :
    ∃ area, getArea ⟨[⟨0, 0⟩, ⟨4, 0⟩, ⟨0, 3⟩]⟩ = some area ∧
      getArea ⟨[⟨0, 3⟩, ⟨0, 0⟩, ⟨4, 0⟩]⟩ = some area :=
  getArea_rotate ⟨[⟨0, 0⟩, ⟨4, 0⟩, ⟨0, 3⟩]⟩ 2 (by decide)

/-! ## Theorems on the aggregates -/

/-- C4 (defect): on the collection holding the single triangle
`(0,0),(1,0),(0,1)`, whose area is `0.5`, `areaNum 3` returns `0`: the
accumulator of `std::accumulate` is an `int`, so the half is truncated. -/
theorem areaNum_truncates :
    getArea ⟨[⟨0, 0⟩, ⟨1, 0⟩, ⟨0, 1⟩]⟩ = some (1 / 2)
      ∧ areaNum 3 [⟨[⟨0, 0⟩, ⟨1, 0⟩, ⟨0, 1⟩]⟩] = some 0 := by
  constructor
  · simp [getArea, getAreaSum, transformInto, accumulateInt, getSubArea]
  · have hsize : sizeEqualsInt 3 3 = true := by
      unfold sizeEqualsInt; norm_num
    have hhalf : doubleToInt (1 / 2) = 0 := by
      have hn : ((1 : ℚ) / 2).num = 1 := by norm_num
      have hd : ((1 : ℚ) / 2).den = 2 := by norm_num
      unfold doubleToInt; rw [hn, hd]; rfl
    have harea : getArea ⟨[⟨0, 0⟩, ⟨1, 0⟩, ⟨0, 1⟩]⟩ = some (1 / 2) := by
      simp [getArea, getAreaSum, transformInto, accumulateInt, getSubArea]
    simp only [areaNum, accumulateSumNum, sumNum, List.length_cons, List.length_nil,
      Nat.reduceAdd, hsize, harea, if_true, Option.map_some', Int.cast_zero, zero_add, hhalf]

/-- C5 (defect): on the collection holding the single triangle
`(0,0),(1,0),(0,1)`, `minArea` returns `0`, which is the area of no polygon of
the collection: the zeros `areaList` is created with are sorted along with
the areas. -/
theorem minArea_not_an_area :
    minArea [⟨[⟨0, 0⟩, ⟨1, 0⟩, ⟨0, 1⟩]⟩] = some 0
      ∧ ¬ ∃ p ∈ [(⟨[⟨0, 0⟩, ⟨1, 0⟩, ⟨0, 1⟩]⟩ : Polygon)], getArea p = minArea [⟨[⟨0, 0⟩, ⟨1, 0⟩, ⟨0, 1⟩]⟩] := by
  have hmin : minArea [⟨[⟨0, 0⟩, ⟨1, 0⟩, ⟨0, 1⟩]⟩] = some 0 := by
    simp [minArea, transformBack, sortDoubles, getArea, getAreaSum, transformInto,
      accumulateInt, getSubArea]
  refine ⟨hmin, ?_⟩
  rw [hmin]
  simp [getArea, getAreaSum, transformInto, accumulateInt, getSubArea]

/-- C6: for a non-empty collection of polygons with at least three points
each, `maxArea` returns a value that is at least the area of every polygon of
the collection and is the area of one of them. -/
theorem maxArea_greatest (c : List Polygon) (hne : c ≠ []) (hwf : WellFormed c) :
    ∃ v, maxArea c = some v
      ∧ (∀ p ∈ c, ∃ a, getArea p = some a ∧ a ≤ v)
      ∧ (∃ q ∈ c, getArea q = some v) := by
  have hlist : List.replicate c.length (0 : ℚ) ++ c.map (fun p => (getArea p).getD 0) ≠ [] := by
    cases c with
    | nil => exact absurd rfl hne
    | cons p t => simp [List.replicate_succ]
  obtain ⟨v, hv, hmem, hmax⟩ := sortDoubles_last _ hlist
  have hall : ∀ p ∈ c, ∃ a, getArea p = some a ∧ a ≤ v := by
    intro p hp
    obtain ⟨a, ha⟩ := getArea_isSome p (hwf p hp)
    refine ⟨a, ha, hmax a ?_⟩
    apply List.mem_append_right
    exact List.mem_map.mpr ⟨p, hp, by rw [ha]; rfl⟩
  refine ⟨v, ?_, hall, ?_⟩
  · simp only [maxArea, areaList_eq c hwf]
    exact hv
  · rcases List.mem_append.mp hmem with hz | ha
    · have hv0 : v = 0 := (List.mem_replicate.mp hz).2
      cases c with
      | nil => exact absurd rfl hne
      | cons p t =>
        obtain ⟨a, ha, hle⟩ := hall p (List.mem_cons_self _ _)
        have h0 := getArea_nonneg p a ha
        refine ⟨p, List.mem_cons_self _ _, ?_⟩
        rw [ha, hv0]
        congr 1
        rw [hv0] at hle
        exact le_antisymm hle h0
    · obtain ⟨q, hq, hqv⟩ := List.mem_map.mp ha
      obtain ⟨a, ha⟩ := getArea_isSome q (hwf q hq)
      refine ⟨q, hq, ?_⟩
      rw [ha] at hqv ⊢
      exact congrArg some hqv

theorem maxArea_greatest_witness :
    ∃ v, maxArea [⟨[⟨0, 0⟩, ⟨0, 2⟩, ⟨2, 2⟩, ⟨2, 0⟩]⟩, ⟨[⟨0, 0⟩, ⟨1, 0⟩, ⟨0, 1⟩]⟩] = some v
      ∧ (∀ p ∈ [(⟨[⟨0, 0⟩, ⟨0, 2⟩, ⟨2, 2⟩, ⟨2, 0⟩]⟩ : Polygon), ⟨[⟨0, 0⟩, ⟨1, 0⟩, ⟨0, 1⟩]⟩],
          ∃ a, getArea p = some a ∧ a ≤ v)
      ∧ (∃ q ∈ [(⟨[⟨0, 0⟩, ⟨0, 2⟩, ⟨2, 2⟩, ⟨2, 0⟩]⟩ : Polygon), ⟨[⟨0, 0⟩, ⟨1, 0⟩, ⟨0, 1⟩]⟩],
          getArea q = some v) :=
  maxArea_greatest [⟨[⟨0, 0⟩, ⟨0, 2⟩, ⟨2, 2⟩, ⟨2, 0⟩]⟩, ⟨[⟨0, 0⟩, ⟨1, 0⟩, ⟨0, 1⟩]⟩]
    (by simp) (by intro p hp; simp at hp; rcases hp with rfl | rfl <;> decide)

/-- C7: for a non-empty collection of polygons with at least three points
each, `minArea` returns a value, and that value is at most the area of every
polygon of the collection. -/
theorem minArea_le (c : List Polygon) (hne : c ≠ []) (hwf : WellFormed c) :
    ∃ v, minArea c = some v ∧ ∀ p ∈ c, ∃ a, getArea p = some a ∧ v ≤ a := by
  have hlist : List.replicate c.length (0 : ℚ) ++ c.map (fun p => (getArea p).getD 0) ≠ [] := by
    cases c with
    | nil => exact absurd rfl hne
    | cons p t => simp [List.replicate_succ]
  obtain ⟨v, hv, _, hmin⟩ := sortDoubles_first _ hlist
  refine ⟨v, ?_, ?_⟩
  · simp only [minArea, areaList_eq c hwf]
    exact hv
  · intro p hp
    obtain ⟨a, ha⟩ := getArea_isSome p (hwf p hp)
    refine ⟨a, ha, hmin a ?_⟩
    apply List.mem_append_right
    exact List.mem_map.mpr ⟨p, hp, by rw [ha]; rfl⟩

theorem minArea_le_witness :
    ∃ v, minArea [⟨[⟨0, 0⟩, ⟨0, 2⟩, ⟨2, 2⟩, ⟨2, 0⟩]⟩, ⟨[⟨0, 0⟩, ⟨1, 0⟩, ⟨0, 1⟩]⟩] = some v
      ∧ ∀ p ∈ [(⟨[⟨0, 0⟩, ⟨0, 2⟩, ⟨2, 2⟩, ⟨2, 0⟩]⟩ : Polygon), ⟨[⟨0, 0⟩, ⟨1, 0⟩, ⟨0, 1⟩]⟩],
          ∃ a, getArea p = some a ∧ v ≤ a :=
  minArea_le [⟨[⟨0, 0⟩, ⟨0, 2⟩, ⟨2, 2⟩, ⟨2, 0⟩]⟩, ⟨[⟨0, 0⟩, ⟨1, 0⟩, ⟨0, 1⟩]⟩]
    (by simp) (by intro p hp; simp at hp; rcases hp with rfl | rfl <;> decide)

/-! ## Theorems on the intersection test -/

/-- C8 (defect): with the lexicographic order on points, `areIntersect`
answers `false` for the triangles `(0,10),(1,0),(0,0)` and
`(0,5),(1,5),(0,6)`, whose bounding boxes `[0,1] x [0,10]` and
`[0,1] x [5,6]` overlap: `getMaxPoint` takes both coordinates from the
lexicographically greatest point `(1,0)`. -/
theorem areIntersect_misses_overlap :
    areIntersect Point.less ⟨[⟨0, 10⟩, ⟨1, 0⟩, ⟨0, 0⟩]⟩ ⟨[⟨0, 5⟩, ⟨1, 5⟩, ⟨0, 6⟩]⟩ = some false
      ∧ boundingBoxesOverlap ⟨[⟨0, 10⟩, ⟨1, 0⟩, ⟨0, 0⟩]⟩ ⟨[⟨0, 5⟩, ⟨1, 5⟩, ⟨0, 6⟩]⟩ = some true
      ∧ getMaxPoint Point.less ⟨[⟨0, 10⟩, ⟨1, 0⟩, ⟨0, 0⟩]⟩ = some ⟨1, 0⟩ := by
  refine ⟨by decide, by decide, by decide⟩

/-- C9 (defect): with the lexicographic order on points, `areIntersect a a`
answers `false` for the triangle `a = (0,5),(1,0),(0,6)`: its greatest point
is `(1,0)` and its least point is `(0,5)`, and `0 >= 5` fails. -/
theorem areIntersect_not_reflexive :
    areIntersect Point.less ⟨[⟨0, 5⟩, ⟨1, 0⟩, ⟨0, 6⟩]⟩ ⟨[⟨0, 5⟩, ⟨1, 0⟩, ⟨0, 6⟩]⟩ = some false
      ∧ getMaxPoint Point.less ⟨[⟨0, 5⟩, ⟨1, 0⟩, ⟨0, 6⟩]⟩ = some ⟨1, 0⟩
      ∧ getMinPoint Point.less ⟨[⟨0, 5⟩, ⟨1, 0⟩, ⟨0, 6⟩]⟩ = some ⟨0, 5⟩ := by
  refine ⟨by decide, by decide, by decide⟩

/-! ## Theorems on duplicate removal -/

/-- C10 (defect): on the collection holding the triangle `(0,0),(4,0),(0,3)`
twice, with that triangle as probe, `rmecho` has no defined outcome, while the
claim expects the collection holding the triangle once: past the parse the
function works on a `const` vector and then reaches its end without a
`return` statement. -/
theorem rmecho_removal_undefined :
    rmecho [⟨[⟨0, 0⟩, ⟨4, 0⟩, ⟨0, 3⟩]⟩, ⟨[⟨0, 0⟩, ⟨4, 0⟩, ⟨0, 3⟩]⟩]
        (PolygonInput.polygon ⟨[⟨0, 0⟩, ⟨4, 0⟩, ⟨0, 3⟩]⟩) = RmechoResult.undefined
      ∧ keepFirstOnly ⟨[⟨0, 0⟩, ⟨4, 0⟩, ⟨0, 3⟩]⟩
          [⟨[⟨0, 0⟩, ⟨4, 0⟩, ⟨0, 3⟩]⟩, ⟨[⟨0, 0⟩, ⟨4, 0⟩, ⟨0, 3⟩]⟩]
        = [⟨[⟨0, 0⟩, ⟨4, 0⟩, ⟨0, 3⟩]⟩] := by
  constructor
  · rfl
  · decide

/-! ## Lemmas for the second group of theorems -/

theorem keepFirstOnly_idempotent (q : Polygon) (c : List Polygon) :
    keepFirstOnly q (keepFirstOnly q c) = keepFirstOnly q c := by
  induction c with
  | nil => rfl
  | cons x t ih =>
    by_cases hx : x = q
    · subst hx
      rw [keepFirstOnly_cons_self, keepFirstOnly_cons_self, List.filter_filter]
      simp
    · rw [keepFirstOnly_cons_ne q x t hx, keepFirstOnly_cons_ne q x _ hx, ih]

theorem getMaxPoint_cons (lt : Point → Point → Bool) (x : Point) (xs : List Point) :
    ∃ m, getMaxPoint lt ⟨x :: xs⟩ = some m := by
  simp [getMaxPoint, max_element]

theorem getMinPoint_cons (lt : Point → Point → Bool) (x : Point) (xs : List Point) :
    ∃ m, getMinPoint lt ⟨x :: xs⟩ = some m := by
  simp [getMinPoint, min_element]

theorem accumulate_even_odd_all (c : List Polygon) (hwf : WellFormed c) (a b : ℚ) :
    ∃ e o t, accumulateDouble sumEven c a = some e ∧ accumulateDouble sumOdd c b = some o
      ∧ accumulateDouble sumAll c (a + b) = some t ∧ e + o = t := by
  induction c generalizing a b with
  | nil => exact ⟨a, b, a + b, rfl, rfl, rfl, rfl⟩
  | cons p t ih =>
    have hwt : WellFormed t := fun q hq => hwf q (List.mem_cons_of_mem _ hq)
    obtain ⟨area, harea⟩ := getArea_isSome p (hwf p (List.mem_cons_self _ _))
    by_cases hpar : p.points_.length % 2 = 0
    · obtain ⟨e, o, s, he, ho, hs, hsum⟩ := ih hwt (a + area) b
      refine ⟨e, o, s, ?_, ?_, ?_, hsum⟩
      · simp only [accumulateDouble, sumEven, hpar, if_true, harea, Option.map_some']
        exact he
      · simp only [accumulateDouble, sumOdd, hpar, ne_eq, not_true_eq_false, if_false]
        exact ho
      · simp only [accumulateDouble, sumAll, harea, Option.map_some']
        rw [show a + b + area = a + area + b by ring]
        exact hs
    · obtain ⟨e, o, s, he, ho, hs, hsum⟩ := ih hwt a (b + area)
      refine ⟨e, o, s, ?_, ?_, ?_, hsum⟩
      · simp only [accumulateDouble, sumEven, hpar, if_false]
        exact he
      · simp only [accumulateDouble, sumOdd, hpar, ne_eq, not_false_eq_true, if_true, harea,
          Option.map_some']
        exact ho
      · simp only [accumulateDouble, sumAll, harea, Option.map_some']
        rw [show a + b + area = a + (b + area) by ring]
        exact hs

theorem sortInts_ne_nil (l : List Int) (h : l ≠ []) : sortInts l ≠ [] := by
  intro h0
  have hlen : (sortInts l).length = l.length :=
    List.length_insertionSort (fun a b : Int => a ≤ b) l
  rw [h0] at hlen
  exact h (List.length_eq_zero.mp hlen.symm)

theorem sortInts_first (l : List Int) (h : l ≠ []) :
    ∃ v, (sortInts l)[0]? = some v ∧ v ∈ l ∧ ∀ a ∈ l, v ≤ a := by
  have hs : (sortInts l).Sorted (fun a b => a ≤ b) :=
    List.sorted_insertionSort (fun a b : Int => a ≤ b) l
  have hm : ∀ x, x ∈ sortInts l ↔ x ∈ l :=
    fun x => List.mem_insertionSort (fun a b : Int => a ≤ b)
  have hne := sortInts_ne_nil l h
  cases hsl : sortInts l with
  | nil => exact absurd hsl hne
  | cons v t =>
    rw [hsl] at hs
    refine ⟨v, by simp, ?_, ?_⟩
    · rw [← hm, hsl]; exact List.mem_cons_self _ _
    · intro a ha
      rw [← hm, hsl] at ha
      rcases List.mem_cons.mp ha with rfl | hat
      · exact le_refl _
      · exact List.rel_of_sorted_cons hs a hat

theorem sortInts_last (l : List Int) (h : l ≠ []) :
    ∃ v, (sortInts l)[(sortInts l).length - 1]? = some v ∧ v ∈ l ∧ ∀ a ∈ l, a ≤ v := by
  have hs : (sortInts l).Sorted (fun a b => a ≤ b) :=
    List.sorted_insertionSort (fun a b : Int => a ≤ b) l
  have hm : ∀ x, x ∈ sortInts l ↔ x ∈ l :=
    fun x => List.mem_insertionSort (fun a b : Int => a ≤ b)
  have hne := sortInts_ne_nil l h
  refine ⟨(sortInts l).getLast hne, ?_, ?_, ?_⟩
  · rw [← List.getLast?_eq_getElem?]; exact List.getLast?_eq_getLast _ hne
  · rw [← hm]; exact List.getLast_mem hne
  · intro a ha
    rw [← hm] at ha
    rw [← List.dropLast_append_getLast hne] at hs ha
    rcases List.mem_append.mp ha with hd | hl
    · exact (List.pairwise_append.mp hs).2.2 a hd _ (List.mem_singleton_self _)
    · rw [List.mem_singleton.mp hl]

theorem vertexList_eq (c : List Polygon) :
    transformBack (fun temp : Polygon => some (temp.points_.length : Int)) c []
      = some (c.map (fun temp => (temp.points_.length : Int))) := by
  have h := transformBack_eq_map (fun temp : Polygon => some (temp.points_.length : Int))
    (fun temp => (temp.points_.length : Int)) c [] (fun _ _ => rfl)
  simpa using h

theorem sizeEqualsInt_iff (size : Nat) (n : Int) (h0 : 0 ≤ n) (hint : n < 2 ^ 31) :
    sizeEqualsInt size n = decide ((size : Int) = n) := by
  have hmod : n % 2 ^ 64 = n := Int.emod_eq_of_lt h0 (by omega)
  simp only [sizeEqualsInt, hmod]

theorem countNum_eq_filter_length (c : List Polygon) (n : Int) (h0 : 0 ≤ n) (hint : n < 2 ^ 31) :
    countNum n c = ((c.filter (fun p => decide ((p.points_.length : Int) = n))).length : ℚ) := by
  have hfun : (fun temp : Polygon => sizeEqualsInt temp.points_.length n)
      = (fun p : Polygon => decide ((p.points_.length : Int) = n)) := by
    funext temp
    exact sizeEqualsInt_iff _ n h0 hint
  simp only [countNum, hfun, List.countP_eq_length_filter]
  push_cast
  rfl

theorem chooseCommand_count_numeric (isdigit : Char → Int) (lt : Point → Point → Bool)
    (c : List Polygon) (option : String) (rest : PolygonInput) (n : Int)
    (hne : c ≠ []) (h1 : option ≠ "EVEN") (h2 : option ≠ "ODD")
    (hdigit : 2 < isdigit (firstChar option)) (hstoi : stoi option = Except.ok n) :
    chooseCommand isdigit lt (some ⟨"COUNT", option, rest⟩) c
      = writeNumber (some (countNum n c)) := by
  have hlen : c.length ≠ 0 := fun h0 => hne (List.length_eq_zero.mp h0)
  have hgt : isdigit (firstChar option) > 2 := hdigit
  simp [chooseCommand, hlen, h1, h2, hgt, hstoi]

theorem chooseCommand_area_numeric (isdigit : Char → Int) (lt : Point → Point → Bool)
    (c : List Polygon) (option : String) (rest : PolygonInput) (n : Int)
    (hne : c ≠ []) (h1 : option ≠ "EVEN") (h2 : option ≠ "ODD") (h3 : option ≠ "MEAN")
    (hdigit : 2 < isdigit (firstChar option)) (hstoi : stoi option = Except.ok n) :
    chooseCommand isdigit lt (some ⟨"AREA", option, rest⟩) c
      = writeNumber (areaNum n c) := by
  have hlen : c.length ≠ 0 := fun h0 => hne (List.length_eq_zero.mp h0)
  have hgt : isdigit (firstChar option) > 2 := hdigit
  simp [chooseCommand, hlen, h1, h2, h3, hgt, hstoi]

theorem isdigitBuiltin_le (ch : Char) : isdigitBuiltin ch ≤ 2 := by
  unfold isdigitBuiltin
  split <;> decide

theorem stoi_ok_ne_keyword (option : String) (n : Int) (hstoi : stoi option = Except.ok n) :
    option ≠ "EVEN" ∧ option ≠ "ODD" ∧ option ≠ "MEAN" := by
  have he : stoi "EVEN" = Except.error "std::invalid_argument" := by rfl
  have ho : stoi "ODD" = Except.error "std::invalid_argument" := by rfl
  have hm : stoi "MEAN" = Except.error "std::invalid_argument" := by rfl
  refine ⟨?_, ?_, ?_⟩
  · intro h; rw [h, he] at hstoi; cases hstoi
  · intro h; rw [h, ho] at hstoi; cases hstoi
  · intro h; rw [h, hm] at hstoi; cases hstoi

theorem chooseCommand_keyword_pairs (isdigit : Char → Int) (lt : Point → Point → Bool)
    (c : List Polygon) (rest : PolygonInput) (hne : c ≠ []) :
    chooseCommand isdigit lt (some ⟨"AREA", "EVEN", rest⟩) c = writeNumber (areaEven c)
      ∧ chooseCommand isdigit lt (some ⟨"AREA", "ODD", rest⟩) c = writeNumber (areaOdd c)
      ∧ chooseCommand isdigit lt (some ⟨"AREA", "MEAN", rest⟩) c = writeNumber (areaMean c)
      ∧ chooseCommand isdigit lt (some ⟨"MAX", "AREA", rest⟩) c = writeNumber (maxArea c)
      ∧ chooseCommand isdigit lt (some ⟨"MAX", "VERTEXES", rest⟩) c = writeNumber (maxVert c)
      ∧ chooseCommand isdigit lt (some ⟨"MIN", "AREA", rest⟩) c = writeNumber (minArea c)
      ∧ chooseCommand isdigit lt (some ⟨"MIN", "VERTEXES", rest⟩) c = writeNumber (minVert c)
      ∧ chooseCommand isdigit lt (some ⟨"COUNT", "EVEN", rest⟩) c
          = writeNumber (some (countEven c))
      ∧ chooseCommand isdigit lt (some ⟨"COUNT", "ODD", rest⟩) c
          = writeNumber (some (countOdd c)) := by
  have hlen : c.length ≠ 0 := fun h0 => hne (List.length_eq_zero.mp h0)
  refine ⟨?_, ?_, ?_, ?_, ?_, ?_, ?_, ?_, ?_⟩ <;> simp [chooseCommand, hlen]

theorem stoi_five : stoi "5" = Except.ok 5 := by rfl

theorem stoi_two : stoi "2" = Except.ok 2 := by rfl

theorem stoi_zero : stoi "0" = Except.ok 0 := by rfl

/-- With a library whose `isdigit` never answers more than `2` (one that
answers `1` for a digit, say), the test `std::isdigit(option[0]) > 2` fails
for every option, so `AREA` and `COUNT` throw for every option that is not a
keyword and the calls of `areaNum` and `countNum` are never reached. -/
theorem chooseCommand_numeric_unreachable (isdigit : Char → Int) (lt : Point → Point → Bool)
    (c : List Polygon) (option : String) (rest : PolygonInput) (hne : c ≠ [])
    (hsmall : ∀ ch : Char, isdigit ch ≤ 2)
    (h1 : option ≠ "EVEN") (h2 : option ≠ "ODD") (h3 : option ≠ "MEAN") :
    chooseCommand isdigit lt (some ⟨"AREA", option, rest⟩) c
        = CommandResult.thrown "BAD COMMAND TYPE" []
      ∧ chooseCommand isdigit lt (some ⟨"COUNT", option, rest⟩) c
        = CommandResult.thrown "BAD COMMAND TYPE" [] := by
  have hlen : c.length ≠ 0 := fun h0 => hne (List.length_eq_zero.mp h0)
  have hle : ¬ isdigit (firstChar option) > 2 := not_lt.mpr (hsmall _)
  constructor <;> simp [chooseCommand, hlen, h1, h2, h3, hle]

/-! ## Theorems on duplicate removal, counts and the intersection test -/

/-- C11 (defect): neither run of the claim has a defined outcome.  On the
collection of the triangle `(0,0),(4,0),(0,3)`, the square
`(0,0),(0,2),(2,2),(2,0)` and the triangle again, with the triangle as probe,
`rmecho` is undefined; and it is undefined again on the collection the claim
expects after the first run, the triangle followed by the square. -/
theorem rmecho_second_run_undefined :
    rmecho [⟨[⟨0, 0⟩, ⟨4, 0⟩, ⟨0, 3⟩]⟩, ⟨[⟨0, 0⟩, ⟨0, 2⟩, ⟨2, 2⟩, ⟨2, 0⟩]⟩,
          ⟨[⟨0, 0⟩, ⟨4, 0⟩, ⟨0, 3⟩]⟩]
        (PolygonInput.polygon ⟨[⟨0, 0⟩, ⟨4, 0⟩, ⟨0, 3⟩]⟩) = RmechoResult.undefined
      ∧ keepFirstOnly ⟨[⟨0, 0⟩, ⟨4, 0⟩, ⟨0, 3⟩]⟩
          [⟨[⟨0, 0⟩, ⟨4, 0⟩, ⟨0, 3⟩]⟩, ⟨[⟨0, 0⟩, ⟨0, 2⟩, ⟨2, 2⟩, ⟨2, 0⟩]⟩,
            ⟨[⟨0, 0⟩, ⟨4, 0⟩, ⟨0, 3⟩]⟩]
        = [⟨[⟨0, 0⟩, ⟨4, 0⟩, ⟨0, 3⟩]⟩, ⟨[⟨0, 0⟩, ⟨0, 2⟩, ⟨2, 2⟩, ⟨2, 0⟩]⟩]
      ∧ rmecho [⟨[⟨0, 0⟩, ⟨4, 0⟩, ⟨0, 3⟩]⟩, ⟨[⟨0, 0⟩, ⟨0, 2⟩, ⟨2, 2⟩, ⟨2, 0⟩]⟩]
        (PolygonInput.polygon ⟨[⟨0, 0⟩, ⟨4, 0⟩, ⟨0, 3⟩]⟩) = RmechoResult.undefined := by
  refine ⟨by rfl, by decide, by rfl⟩

/-- C13: for every collection, the empty one included, `countEven` plus
`countOdd` is the number of polygons of the collection. -/
theorem countEven_add_countOdd (c : List Polygon) :
    countEven c + countOdd c = (c.length : ℚ) := by
  have h := List.length_eq_countP_add_countP
    (fun temp : Polygon => decide (temp.points_.length % 2 = 0)) (l := c)
  have hodd : (fun temp : Polygon => decide (temp.points_.length % 2 ≠ 0))
      = (fun temp : Polygon => decide ¬ (decide (temp.points_.length % 2 = 0) = true)) := by
    funext temp
    simp
  simp only [countEven, countOdd]
  rw [hodd, h]
  push_cast
  rfl

/-- C20: for polygons `a` and `b` with at least one point each and for any
order `lt` used to pick the extreme points, `areIntersect` returns a value
for `(a, b)` and returns the same value for `(b, a)`. -/
theorem areIntersect_symmetric (lt : Point → Point → Bool) (a b : Polygon)
    (ha : a.points_ ≠ []) (hb : b.points_ ≠ []) :
    ∃ r, areIntersect lt a b = some r ∧ areIntersect lt b a = some r := by
  obtain ⟨pa⟩ := a
  obtain ⟨pb⟩ := b
  cases pa with
  | nil => exact absurd rfl ha
  | cons x xs =>
    cases pb with
    | nil => exact absurd rfl hb
    | cons y ys =>
      obtain ⟨aMax, haMax⟩ := getMaxPoint_cons lt x xs
      obtain ⟨aMin, haMin⟩ := getMinPoint_cons lt x xs
      obtain ⟨bMax, hbMax⟩ := getMaxPoint_cons lt y ys
      obtain ⟨bMin, hbMin⟩ := getMinPoint_cons lt y ys
      refine ⟨decide (aMax.x_ ≥ bMin.x_) && decide (aMax.y_ ≥ bMin.y_)
        && decide (aMin.x_ ≤ bMax.x_) && decide (aMin.y_ ≤ bMax.y_), ?_, ?_⟩
      · simp only [areIntersect, haMax, haMin, hbMax, hbMin]
      simp only [areIntersect, haMax, haMin, hbMax, hbMin, Option.some.injEq, ge_iff_le]
      rw [Bool.eq_iff_iff]
      simp only [Bool.and_eq_true, decide_eq_true_eq]
      tauto

theorem areIntersect_symmetric_witness :
    ∃ r, areIntersect Point.less ⟨[⟨0, 0⟩, ⟨4, 0⟩, ⟨0, 3⟩]⟩ ⟨[⟨1, 1⟩, ⟨9, 9⟩]⟩ = some r
      ∧ areIntersect Point.less ⟨[⟨1, 1⟩, ⟨9, 9⟩]⟩ ⟨[⟨0, 0⟩, ⟨4, 0⟩, ⟨0, 3⟩]⟩ = some r :=
  areIntersect_symmetric Point.less ⟨[⟨0, 0⟩, ⟨4, 0⟩, ⟨0, 3⟩]⟩ ⟨[⟨1, 1⟩, ⟨9, 9⟩]⟩
    (by simp) (by simp)

/-! ## Theorems on the sums and the vertex extremes -/

/-- C12: for a non-empty collection of polygons with at least three points
each, in exact rational arithmetic, `areaEven`, `areaOdd` and `areaMean`
return values, and `areaEven + areaOdd = areaMean * size`. -/
theorem areaEven_add_areaOdd (c : List Polygon) (hne : c ≠ []) (hwf : WellFormed c) :
    ∃ e o m, areaEven c = some e ∧ areaOdd c = some o ∧ areaMean c = some m
      ∧ e + o = m * (c.length : ℚ) := by
  obtain ⟨e, o, t, he, ho, ht, hsum⟩ := accumulate_even_odd_all c hwf 0 0
  rw [add_zero] at ht
  have hlen : c.length ≠ 0 := fun h0 => hne (List.length_eq_zero.mp h0)
  have hq : (c.length : ℚ) ≠ 0 := Nat.cast_ne_zero.mpr hlen
  refine ⟨e, o, t / (c.length : ℚ), he, ho, ?_, ?_⟩
  · simp only [areaMean, ht, hlen, if_false]
  · rw [hsum, div_mul_cancel₀ t hq]

theorem areaEven_add_areaOdd_witness :
    ∃ e o m, areaEven [⟨[⟨0, 0⟩, ⟨0, 2⟩, ⟨2, 2⟩, ⟨2, 0⟩]⟩, ⟨[⟨0, 0⟩, ⟨4, 0⟩, ⟨0, 3⟩]⟩] = some e
      ∧ areaOdd [⟨[⟨0, 0⟩, ⟨0, 2⟩, ⟨2, 2⟩, ⟨2, 0⟩]⟩, ⟨[⟨0, 0⟩, ⟨4, 0⟩, ⟨0, 3⟩]⟩] = some o
      ∧ areaMean [⟨[⟨0, 0⟩, ⟨0, 2⟩, ⟨2, 2⟩, ⟨2, 0⟩]⟩, ⟨[⟨0, 0⟩, ⟨4, 0⟩, ⟨0, 3⟩]⟩] = some m
      ∧ e + o = m * (([(⟨[⟨0, 0⟩, ⟨0, 2⟩, ⟨2, 2⟩, ⟨2, 0⟩]⟩ : Polygon),
          ⟨[⟨0, 0⟩, ⟨4, 0⟩, ⟨0, 3⟩]⟩].length : Nat) : ℚ) :=
  areaEven_add_areaOdd [⟨[⟨0, 0⟩, ⟨0, 2⟩, ⟨2, 2⟩, ⟨2, 0⟩]⟩, ⟨[⟨0, 0⟩, ⟨4, 0⟩, ⟨0, 3⟩]⟩]
    (by simp) (by intro p hp; simp at hp; rcases hp with rfl | rfl <;> decide)

/-- C14: for a non-empty collection, `maxVert` returns the greatest and
`minVert` the least vertex count of the collection: each is the vertex count
of one of its polygons, and every polygon has a vertex count between them. -/
theorem maxVert_minVert (c : List Polygon) (hne : c ≠ []) :
    ∃ hi lo : Nat, maxVert c = some (hi : ℚ) ∧ minVert c = some (lo : ℚ)
      ∧ (∃ p ∈ c, p.points_.length = hi) ∧ (∃ p ∈ c, p.points_.length = lo)
      ∧ ∀ p ∈ c, lo ≤ p.points_.length ∧ p.points_.length ≤ hi := by
  have hmap : c.map (fun temp => (temp.points_.length : Int)) ≠ [] := by
    intro h0; exact hne (List.map_eq_nil_iff.mp h0)
  obtain ⟨vhi, hhi, hhimem, hhimax⟩ := sortInts_last _ hmap
  obtain ⟨vlo, hlo, hlomem, hlomin⟩ := sortInts_first _ hmap
  obtain ⟨phi, hphi, hphieq⟩ := List.mem_map.mp hhimem
  obtain ⟨plo, hplo, hploeq⟩ := List.mem_map.mp hlomem
  refine ⟨phi.points_.length, plo.points_.length, ?_, ?_, ⟨phi, hphi, rfl⟩, ⟨plo, hplo, rfl⟩, ?_⟩
  · simp only [maxVert, vertexList_eq, hhi, Option.map_some', ← hphieq]
    rfl
  · simp only [minVert, vertexList_eq, hlo, Option.map_some', ← hploeq]
    rfl
  · intro p hp
    have hmem : (p.points_.length : Int) ∈ c.map (fun temp => (temp.points_.length : Int)) :=
      List.mem_map.mpr ⟨p, hp, rfl⟩
    have h1 := hlomin _ hmem
    have h2 := hhimax _ hmem
    rw [← hploeq] at h1
    rw [← hphieq] at h2
    exact ⟨Int.ofNat_le.mp h1, Int.ofNat_le.mp h2⟩

theorem maxVert_minVert_witness :
    ∃ hi lo : Nat,
      maxVert [⟨[⟨0, 0⟩, ⟨0, 2⟩, ⟨2, 2⟩, ⟨2, 0⟩]⟩, ⟨[⟨0, 0⟩, ⟨4, 0⟩, ⟨0, 3⟩]⟩] = some (hi : ℚ)
      ∧ minVert [⟨[⟨0, 0⟩, ⟨0, 2⟩, ⟨2, 2⟩, ⟨2, 0⟩]⟩, ⟨[⟨0, 0⟩, ⟨4, 0⟩, ⟨0, 3⟩]⟩] = some (lo : ℚ)
      ∧ (∃ p ∈ [(⟨[⟨0, 0⟩, ⟨0, 2⟩, ⟨2, 2⟩, ⟨2, 0⟩]⟩ : Polygon), ⟨[⟨0, 0⟩, ⟨4, 0⟩, ⟨0, 3⟩]⟩],
          p.points_.length = hi)
      ∧ (∃ p ∈ [(⟨[⟨0, 0⟩, ⟨0, 2⟩, ⟨2, 2⟩, ⟨2, 0⟩]⟩ : Polygon), ⟨[⟨0, 0⟩, ⟨4, 0⟩, ⟨0, 3⟩]⟩],
          p.points_.length = lo)
      ∧ ∀ p ∈ [(⟨[⟨0, 0⟩, ⟨0, 2⟩, ⟨2, 2⟩, ⟨2, 0⟩]⟩ : Polygon), ⟨[⟨0, 0⟩, ⟨4, 0⟩, ⟨0, 3⟩]⟩],
          lo ≤ p.points_.length ∧ p.points_.length ≤ hi :=
  maxVert_minVert [⟨[⟨0, 0⟩, ⟨0, 2⟩, ⟨2, 2⟩, ⟨2, 0⟩]⟩, ⟨[⟨0, 0⟩, ⟨4, 0⟩, ⟨0, 3⟩]⟩] (by simp)

/-! ## Theorems on the command interpreter -/

/-- C17: on an empty collection, whatever command text the stream holds (any
verb, any option, anything behind them), `chooseCommand` throws
`BAD POLYGONS` and has written nothing. -/
theorem chooseCommand_empty_collection (isdigit : Char → Int) (lt : Point → Point → Bool)
    (command : CommandInput) :
    chooseCommand isdigit lt (some command) [] = CommandResult.thrown "BAD POLYGONS" [] := by
  simp [chooseCommand]

/-- C15 (defect): with `std::isdigit` as g++ compiles it, the command `COUNT 5`
on the collection holding the triangle `(0,0),(4,0),(0,3)`, which has no
polygon of five vertices, throws `BAD COMMAND TYPE` and writes nothing, while
`countNum 5` of that collection is `0`: the test
`std::isdigit(option[0]) > 2` compares the answer `1` with `2`, so `countNum`
is never called. -/
theorem chooseCommand_count_five_rejected :
    chooseCommand isdigitBuiltin Point.less (some ⟨"COUNT", "5", PolygonInput.exhausted⟩)
        [⟨[⟨0, 0⟩, ⟨4, 0⟩, ⟨0, 3⟩]⟩]
      = CommandResult.thrown "BAD COMMAND TYPE" []
    ∧ countNum 5 [⟨[⟨0, 0⟩, ⟨4, 0⟩, ⟨0, 3⟩]⟩] = 0
    ∧ isdigitBuiltin '5' = 1 := by
  refine ⟨?_, ?_, by decide⟩
  · exact (chooseCommand_numeric_unreachable isdigitBuiltin Point.less _ "5"
      PolygonInput.exhausted (by simp) isdigitBuiltin_le (by decide) (by decide)
      (by decide)).2
  · have hsize : sizeEqualsInt 3 5 = false := by
      unfold sizeEqualsInt; norm_num
    simp [countNum, hsize]

/-- C16: with `std::isdigit` as g++ compiles it, on a non-empty collection
the verbs `AREA` and `COUNT` with an option that `std::stoi` reads as a number
less than `3` (such an option is no keyword) throw `BAD COMMAND TYPE` and
write nothing: `areaNum` and `countNum` are not called. -/
theorem chooseCommand_small_number_rejected (lt : Point → Point → Bool)
    (c : List Polygon) (option : String) (rest : PolygonInput) (n : Int)
    (hne : c ≠ []) (hnum : stoi option = Except.ok n) (_hsmall : n < 3) :
    chooseCommand isdigitBuiltin lt (some ⟨"AREA", option, rest⟩) c
        = CommandResult.thrown "BAD COMMAND TYPE" []
      ∧ chooseCommand isdigitBuiltin lt (some ⟨"COUNT", option, rest⟩) c
        = CommandResult.thrown "BAD COMMAND TYPE" [] := by
  obtain ⟨h1, h2, h3⟩ := stoi_ok_ne_keyword option n hnum
  exact chooseCommand_numeric_unreachable isdigitBuiltin lt c option rest hne
    isdigitBuiltin_le h1 h2 h3

theorem chooseCommand_small_number_rejected_witness :
    (chooseCommand isdigitBuiltin Point.less (some ⟨"AREA", "2", PolygonInput.exhausted⟩)
        [⟨[⟨0, 0⟩, ⟨4, 0⟩, ⟨0, 3⟩]⟩]
        = CommandResult.thrown "BAD COMMAND TYPE" []
      ∧ chooseCommand isdigitBuiltin Point.less (some ⟨"COUNT", "2", PolygonInput.exhausted⟩)
        [⟨[⟨0, 0⟩, ⟨4, 0⟩, ⟨0, 3⟩]⟩]
        = CommandResult.thrown "BAD COMMAND TYPE" [])
    ∧ stoi "2" = Except.ok 2 :=
  ⟨chooseCommand_small_number_rejected Point.less [⟨[⟨0, 0⟩, ⟨4, 0⟩, ⟨0, 3⟩]⟩] "2"
    PolygonInput.exhausted 2 (by simp) stoi_two (by decide), stoi_two⟩

/-- C18: on a non-empty collection `chooseCommand` throws `BAD COMMAND TYPE`
and has written nothing when the verb is `MAX` or `MIN` and the option is
anything but `AREA` and `VERTEXES`, whatever `isdigit` answers; and, with
`std::isdigit` as g++ compiles it, when the verb is `AREA` or `COUNT` and the
option is no keyword of that verb, be it numeric or not. -/
theorem chooseCommand_bad_command_type (isdigit : Char → Int) (lt : Point → Point → Bool)
    (c : List Polygon) (option : String) (rest : PolygonInput) (hne : c ≠ []) :
    (option ≠ "AREA" → option ≠ "VERTEXES" →
        chooseCommand isdigit lt (some ⟨"MAX", option, rest⟩) c
          = CommandResult.thrown "BAD COMMAND TYPE" []
        ∧ chooseCommand isdigit lt (some ⟨"MIN", option, rest⟩) c
          = CommandResult.thrown "BAD COMMAND TYPE" [])
      ∧ (option ≠ "EVEN" → option ≠ "ODD" → option ≠ "MEAN" →
          chooseCommand isdigitBuiltin lt (some ⟨"AREA", option, rest⟩) c
            = CommandResult.thrown "BAD COMMAND TYPE" [])
      ∧ (option ≠ "EVEN" → option ≠ "ODD" →
          chooseCommand isdigitBuiltin lt (some ⟨"COUNT", option, rest⟩) c
            = CommandResult.thrown "BAD COMMAND TYPE" []) := by
  have hlen : c.length ≠ 0 := fun h0 => hne (List.length_eq_zero.mp h0)
  have hle : ¬ isdigitBuiltin (firstChar option) > 2 := not_lt.mpr (isdigitBuiltin_le _)
  refine ⟨?_, ?_, ?_⟩
  · intro h1 h2
    constructor <;> simp [chooseCommand, hlen, h1, h2]
  · intro h1 h2 h3
    simp [chooseCommand, hlen, h1, h2, h3, hle]
  · intro h1 h2
    simp [chooseCommand, hlen, h1, h2, hle]

theorem chooseCommand_bad_command_type_witness :
    chooseCommand isdigitBuiltin Point.less (some ⟨"AREA", "XYZ", PolygonInput.exhausted⟩)
        [⟨[⟨0, 0⟩, ⟨4, 0⟩, ⟨0, 3⟩]⟩]
      = CommandResult.thrown "BAD COMMAND TYPE" []
    ∧ chooseCommand isdigitBuiltin Point.less (some ⟨"COUNT", "XYZ", PolygonInput.exhausted⟩)
        [⟨[⟨0, 0⟩, ⟨4, 0⟩, ⟨0, 3⟩]⟩]
      = CommandResult.thrown "BAD COMMAND TYPE" []
    ∧ chooseCommand isdigitBuiltin Point.less (some ⟨"MAX", "XYZ", PolygonInput.exhausted⟩)
        [⟨[⟨0, 0⟩, ⟨4, 0⟩, ⟨0, 3⟩]⟩]
      = CommandResult.thrown "BAD COMMAND TYPE" [] :=
  ⟨(chooseCommand_bad_command_type isdigitBuiltin Point.less [⟨[⟨0, 0⟩, ⟨4, 0⟩, ⟨0, 3⟩]⟩]
      "XYZ" PolygonInput.exhausted (by simp)).2.1 (by decide) (by decide) (by decide),
   (chooseCommand_bad_command_type isdigitBuiltin Point.less [⟨[⟨0, 0⟩, ⟨4, 0⟩, ⟨0, 3⟩]⟩]
      "XYZ" PolygonInput.exhausted (by simp)).2.2 (by decide) (by decide),
   ((chooseCommand_bad_command_type isdigitBuiltin Point.less [⟨[⟨0, 0⟩, ⟨4, 0⟩, ⟨0, 3⟩]⟩]
      "XYZ" PolygonInput.exhausted (by simp)).1 (by decide) (by decide)).1⟩

/-- C19 (defect): on the collection of the square `(0,0),(0,2),(2,2),(2,0)`
and the triangle `(0,0),(4,0),(0,3)` the commands `AREA EVEN`, `AREA ODD` and
`MAX VERTEXES` reach the aggregate of the same name and write `4.0`, `6.0`
and `4.0`, but the call then ends undefined: behind the chain of `if` and
`else if` the function, which returns `std::ostream&`, has no `return`
statement. -/
theorem chooseCommand_ends_without_return (isdigit : Char → Int)
    (lt : Point → Point → Bool) (rest : PolygonInput) :
    chooseCommand isdigit lt (some ⟨"AREA", "EVEN", rest⟩)
          [⟨[⟨0, 0⟩, ⟨0, 2⟩, ⟨2, 2⟩, ⟨2, 0⟩]⟩, ⟨[⟨0, 0⟩, ⟨4, 0⟩, ⟨0, 3⟩]⟩]
        = CommandResult.undefined [OutputItem.number 4]
    ∧ chooseCommand isdigit lt (some ⟨"AREA", "ODD", rest⟩)
          [⟨[⟨0, 0⟩, ⟨0, 2⟩, ⟨2, 2⟩, ⟨2, 0⟩]⟩, ⟨[⟨0, 0⟩, ⟨4, 0⟩, ⟨0, 3⟩]⟩]
        = CommandResult.undefined [OutputItem.number 6]
    ∧ chooseCommand isdigit lt (some ⟨"MAX", "VERTEXES", rest⟩)
          [⟨[⟨0, 0⟩, ⟨0, 2⟩, ⟨2, 2⟩, ⟨2, 0⟩]⟩, ⟨[⟨0, 0⟩, ⟨4, 0⟩, ⟨0, 3⟩]⟩]
        = CommandResult.undefined [OutputItem.number 4] := by
  have hsq : getArea ⟨[⟨0, 0⟩, ⟨0, 2⟩, ⟨2, 2⟩, ⟨2, 0⟩]⟩ = some 4 := by
    simp [getArea, getAreaSum, transformInto, accumulateInt, getSubArea]
    norm_num
  have htri : getArea ⟨[⟨0, 0⟩, ⟨4, 0⟩, ⟨0, 3⟩]⟩ = some 6 := by
    simp [getArea, getAreaSum, transformInto, accumulateInt, getSubArea]
    norm_num
  refine ⟨?_, ?_, ?_⟩
  · simp [chooseCommand, writeNumber, areaEven, accumulateDouble, sumEven, hsq]
  · simp [chooseCommand, writeNumber, areaOdd, accumulateDouble, sumOdd, htri]
  · simp [chooseCommand, writeNumber, maxVert, transformBack, sortInts]

end ermilov
